import Mathlib

/-!
Verification of the consult-human Telegram request/reply coordination core.

The Go sources are shallowly embedded: machine integers (`int64`, `int`)
become `Int` (no arithmetic in the modelled code can overflow in practice,
and no claim depends on wraparound), `time.Time` becomes an `Int` count of
seconds where the Go zero time is `0` (`IsZero` becomes `= 0`), Go slices
and maps become `List`s (a map is an association list whose update replaces
the bound key), and fallible I/O plumbing (file locking, JSON persistence)
is dropped: every store operation is modelled as the pure state transformer
it performs between its load and its save, which is exactly the behaviour
the specification describes.

Go string primitives are re-implemented over `List Char` so that every
definition evaluates inside the kernel; they agree with the Go originals on
the ASCII inputs the program manipulates (for Unicode, `strings.EqualFold`
is modelled as lower-case equality and `strings.TrimSpace` trims the
whitespace recognised by `Char.isWhitespace`).
-/

/-- Go `strings.TrimSpace`: strip whitespace from both ends. -/
def goTrimSpace (s : String) : String :=
  String.mk (((s.data.dropWhile Char.isWhitespace).reverse.dropWhile Char.isWhitespace).reverse)

/-- Go `strings.ToLower` (ASCII). -/
def goToLower (s : String) : String :=
  String.mk (s.data.map Char.toLower)

/-- Go `strings.ToUpper` (ASCII). -/
def goToUpper (s : String) : String :=
  String.mk (s.data.map Char.toUpper)

/-- Go `strings.Trim(s, cutset)`: strip any character of `cut` from both ends. -/
def goTrimCutset (s : String) (cut : List Char) : String :=
  String.mk (((s.data.dropWhile (cut.contains ·)).reverse.dropWhile (cut.contains ·)).reverse)

/-- Go `strings.ContainsAny(s, chars)`. -/
def goContainsAny (s : String) (cs : List Char) : Bool :=
  s.data.any (fun c => cs.contains c)

/-- Go `strings.Contains(s, sub)` for a single-character `sub`. -/
def goContainsChar (s : String) (c : Char) : Bool :=
  s.data.contains c

/-- Go `strings.HasPrefix(s, p)`. -/
def goStartsWith (s p : String) : Bool :=
  p.data.isPrefixOf s.data

/-- Drop the first `n` characters (Go byte slicing `s[n:]` on ASCII text). -/
def goDropChars (s : String) (n : Nat) : String :=
  String.mk (s.data.drop n)

/-- Go `strings.EqualFold`, modelled as case-insensitive equality. -/
def goEqualFold (a b : String) : Bool :=
  goToLower a == goToLower b

/-- Decimal digit run value; `none` when empty or non-digit (Go `strconv.Atoi` core). -/
def digitsVal (l : List Char) : Option Nat :=
  if l ≠ [] ∧ l.all Char.isDigit then
    some (l.foldl (fun a c => a * 10 + (c.toNat - 48)) 0)
  else
    none

/-- Go `strconv.Atoi` (overflow ignored: the program only parses tiny indices). -/
def goAtoi (s : String) : Option Int :=
  match s.data with
  | '-' :: rest => (digitsVal rest).map (fun n => -(n : Int))
  | '+' :: rest => (digitsVal rest).map (fun n => (n : Int))
  | l => (digitsVal l).map (fun n => (n : Int))

/-- Byte-lexicographic order on strings (Go `slices.Sort` on `[]string`). -/
def charListLe : List Char → List Char → Bool
  | [], _ => true
  | _ :: _, [] => false
  | a :: as, b :: bs =>
    if a.val < b.val then true
    else if b.val < a.val then false
    else charListLe as bs

def strLeGo (a b : String) : Bool :=
  charListLe a.data b.data

def insertSortedStr (x : String) : List String → List String
  | [] => [x]
  | y :: ys => if strLeGo x y then x :: y :: ys else y :: insertSortedStr x ys

/-- Go `slices.Sort` on `[]string` (insertion sort; the Go sort on the
distinct identifiers produced by classification yields the same list). -/
def sortStrings : List String → List String
  | [] => []
  | x :: xs => insertSortedStr x (sortStrings xs)

/-- Go `strings.FieldsFunc` restricted to a delimiter predicate: split and
drop empty fields. -/
def fieldsAux (isDelim : Char → Bool) : List Char → List Char → List (List Char)
  | [], acc => if acc = [] then [] else [acc.reverse]
  | c :: rest, acc =>
    if isDelim c then
      if acc = [] then fieldsAux isDelim rest []
      else acc.reverse :: fieldsAux isDelim rest []
    else
      fieldsAux isDelim rest (c :: acc)

def goFieldsFunc (s : String) (isDelim : Char → Bool) : List String :=
  (fieldsAux isDelim s.data []).map String.mk

/-! ## Contract data model (contract/contract.go) -/

/-- `contract.Choice`. -/
structure Choice where
  id : String
  text : String
  deriving Repr, DecidableEq

/-- `contract.AskRequest` (the `type` and `sent_at` fields play no role in
the claims and are omitted from the classification inputs). -/
structure AskRequest where
  requestID : String
  question : String
  choices : List Choice
  allowOther : Bool
  deriving Repr, DecidableEq

/-- `contract.Reply`. The Go field `From` is named `sender` because `from`
is reserved in Lean. -/
structure Reply where
  requestID : String
  text : String
  sender : String
  providerMessageID : String
  receivedAt : Int
  raw : String
  deriving Repr, DecidableEq

/-! ## Telegram transport payloads (telegram.go types) -/

/-- `telegramUser`. -/
structure telegramUser where
  username : String
  firstName : String
  lastName : String
  deriving Repr, DecidableEq

/-- `telegramMessage`. The Go field `Chat telegramChat` is flattened to its
only member `chatID`; `ReplyToMessage *telegramMessage` is modelled by the
only field the program reads from it, its `MessageID` (`none` = nil). -/
structure telegramMessage where
  messageID : Int
  date : Int
  text : String
  chatID : Int
  fromUser : Option telegramUser
  replyToMessageID : Option Int
  deriving Repr, DecidableEq

/-- `telegramUpdate`. -/
structure telegramUpdate where
  updateID : Int
  message : Option telegramMessage
  deriving Repr, DecidableEq

/-! ## Inbox store (provider/telegram_inbox_store.go) -/

def telegramInboxReplyTTL : Int := 20 * 60
def telegramInboxLooseTTL : Int := 5 * 60
def telegramInboxMaxEntries : Nat := 4096
def telegramPendingLegacyTTL : Int := 24 * 60 * 60

/-- `telegramInboxEntry`. -/
structure telegramInboxEntry where
  updateID : Int
  chatID : Int
  messageID : Int
  replyToMessageID : Int
  text : String
  date : Int
  username : String
  firstName : String
  lastName : String
  ingestedAt : Int
  expiresAt : Int
  deriving Repr, DecidableEq

/-- `telegramInboxState`. -/
structure telegramInboxState where
  nextUpdateID : Int
  entries : List telegramInboxEntry
  deriving Repr, DecidableEq

/-- `pruneExpiredInboxEntries`: drop every entry whose `expires_at` is set
and not after `now`. -/
def pruneInboxEntries (now : Int) (entries : List telegramInboxEntry) : List telegramInboxEntry :=
  entries.filter (fun rec => rec.expiresAt == 0 || decide (now < rec.expiresAt))

def pruneInboxState (now : Int) (s : telegramInboxState) : telegramInboxState :=
  { s with entries := pruneInboxEntries now s.entries }

/-- The admission step of `AppendUpdates` for one update (lines 128-160):
skip a nil message or empty trimmed text, otherwise build the entry with the
reply-TTL when it is a threaded reply to a positive message id. -/
def entryFromUpdate (now : Int) (u : telegramUpdate) : Option telegramInboxEntry :=
  match u.message with
  | none => none
  | some msg =>
    let text := goTrimSpace msg.text
    if text = "" then none
    else
      let replyToID : Int :=
        match msg.replyToMessageID with
        | some k => k
        | none => 0
      let expiresAt : Int :=
        match msg.replyToMessageID with
        | some k => if 0 < k then now + telegramInboxReplyTTL else now + telegramInboxLooseTTL
        | none => now + telegramInboxLooseTTL
      some
        { updateID := u.updateID
          chatID := msg.chatID
          messageID := msg.messageID
          replyToMessageID := replyToID
          text := text
          date := msg.date
          username := match msg.fromUser with | some f => goTrimSpace f.username | none => ""
          firstName := match msg.fromUser with | some f => goTrimSpace f.firstName | none => ""
          lastName := match msg.fromUser with | some f => goTrimSpace f.lastName | none => ""
          ingestedAt := now
          expiresAt := expiresAt }

/-- The running `maxUpdate` of `AppendUpdates`: it starts at `0` and takes
every update of the batch into account, admitted or not. -/
def telegramBatchMax : List telegramUpdate → Int
  | [] => 0
  | u :: rest => max u.updateID (telegramBatchMax rest)

/-- The admission loop of `AppendUpdates`: deduplicate against the ids in
`seen` (the ids already in the store plus the ids admitted so far; skipped
updates do not extend it, exactly as in the source). -/
def appendAdmit (now : Int) : List telegramUpdate → List Int → List telegramInboxEntry
  | [], _ => []
  | u :: rest, seen =>
    if seen.contains u.updateID then
      appendAdmit now rest seen
    else
      match entryFromUpdate now u with
      | none => appendAdmit now rest seen
      | some e => e :: appendAdmit now rest (u.updateID :: seen)

def insertEntrySorted (e : telegramInboxEntry) : List telegramInboxEntry → List telegramInboxEntry
  | [] => [e]
  | y :: ys => if e.updateID ≤ y.updateID then e :: y :: ys else y :: insertEntrySorted e ys

/-- The re-sort of `AppendUpdates` (`sort.Slice` by `update_id`; update ids
are unique after deduplication, so the sort's instability is immaterial). -/
def sortEntriesByUpdateID : List telegramInboxEntry → List telegramInboxEntry
  | [] => []
  | e :: es => insertEntrySorted e (sortEntriesByUpdateID es)

/-- `NextOffset`: prune, persist, return the shared offset. -/
def NextOffset (now : Int) (s : telegramInboxState) : Int × telegramInboxState :=
  let s1 := pruneInboxState now s
  (s1.nextUpdateID, s1)

/-- `AppendUpdates`: returns `(n_added, next_offset, new state)`. -/
def AppendUpdates (now : Int) (updates : List telegramUpdate) (s : telegramInboxState) :
    Int × Int × telegramInboxState :=
  if updates.isEmpty then
    let p := NextOffset now s
    (0, p.1, p.2)
  else
    let s1 := pruneInboxState now s
    let admitted := appendAdmit now updates (s1.entries.map (·.updateID))
    let maxUpdate := telegramBatchMax updates
    let next :=
      if 0 < maxUpdate ∧ s1.nextUpdateID < maxUpdate + 1 then maxUpdate + 1
      else s1.nextUpdateID
    let sorted := sortEntriesByUpdateID (s1.entries ++ admitted)
    let truncated :=
      if telegramInboxMaxEntries < sorted.length then
        sorted.drop (sorted.length - telegramInboxMaxEntries)
      else sorted
    ((admitted.length : Int), next, { nextUpdateID := next, entries := truncated })

/-- The scan of `ClaimForRequest` (lines 196-252), returning
`(claimed, needs_reminder, remaining entries)`.  The source's final
`entry.MessageID > targetMessageID` test is the complement of the drop just
before it, so the trailing `i++` is unreachable and the last branch accepts. -/
def claimScan (chatID targetMessageID : Int) (pendingCount : Int) :
    List telegramInboxEntry → Option telegramInboxEntry × Bool × List telegramInboxEntry
  | [] => (none, false, [])
  | e :: rest =>
    if e.chatID ≠ chatID then
      let r := claimScan chatID targetMessageID pendingCount rest
      (r.1, r.2.1, e :: r.2.2)
    else if 0 < targetMessageID ∧ e.replyToMessageID = targetMessageID then
      (some e, false, rest)
    else if 1 < pendingCount then
      if e.replyToMessageID = 0 ∧ targetMessageID < e.messageID then
        let r := claimScan chatID targetMessageID pendingCount rest
        (r.1, true, r.2.2)
      else if e.replyToMessageID = 0 ∧ e.messageID ≤ targetMessageID then
        claimScan chatID targetMessageID pendingCount rest
      else
        let r := claimScan chatID targetMessageID pendingCount rest
        (r.1, r.2.1, e :: r.2.2)
    else
      if e.replyToMessageID ≠ 0 ∧ e.replyToMessageID ≠ targetMessageID then
        claimScan chatID targetMessageID pendingCount rest
      else if e.messageID ≤ targetMessageID then
        claimScan chatID targetMessageID pendingCount rest
      else
        (some e, false, rest)

/-- `ClaimForRequest`: prune, scan, persist. -/
def ClaimForRequest (now : Int) (chatID targetMessageID : Int) (pendingCount : Int)
    (s : telegramInboxState) : Option telegramInboxEntry × Bool × telegramInboxState :=
  let s1 := pruneInboxState now s
  let r := claimScan chatID targetMessageID pendingCount s1.entries
  (r.1, r.2.1, { nextUpdateID := s1.nextUpdateID, entries := r.2.2 })

/-! ## Pending store (provider/telegram_pending_store.go) -/

/-- `telegramPendingRecord`. -/
structure telegramPendingRecord where
  requestID : String
  chatID : Int
  messageID : Int
  createdAt : Int
  expiresAt : Int
  ownerPID : Int
  ownerHost : String
  deriving Repr, DecidableEq

/-- The process environment the pending store consults: `runtime.GOOS`,
the cached `telegramLocalHostname`, and the OS process-liveness probe that
`processExists` performs on a positive pid (signal 0; EPERM counts alive). -/
structure pendingEnv where
  goosWindows : Bool
  localHostname : String
  processAlive : Int → Bool

/-- `processExists`: `false` for non-positive pids, otherwise the OS probe. -/
def processExists (env : pendingEnv) (pid : Int) : Bool :=
  if pid ≤ 0 then false else env.processAlive pid

/-- `loadTelegramLocalHostname`: lower-cased, trimmed hostname. -/
def loadTelegramLocalHostname (hostname : String) : String :=
  goToLower (goTrimSpace hostname)

/-- `isTelegramPendingOrphaned`. -/
def isTelegramPendingOrphaned (env : pendingEnv) (rec : telegramPendingRecord) : Bool :=
  if rec.ownerPID ≤ 0 ∨ env.goosWindows then false
  else if rec.ownerHost ≠ "" ∧
      (env.localHostname = "" ∨ goEqualFold (goTrimSpace rec.ownerHost) env.localHostname = false) then
    false
  else
    !(processExists env rec.ownerPID)

/-- The TTL part of `isTelegramPendingExpired` (lines 232-239): `expires_at`
when set, else the legacy 24 h window from `created_at`, else never. -/
def isTelegramPendingTTLExpired (rec : telegramPendingRecord) (now : Int) : Bool :=
  if rec.expiresAt ≠ 0 then decide (rec.expiresAt ≤ now)
  else if rec.createdAt ≠ 0 then decide (rec.createdAt + telegramPendingLegacyTTL ≤ now)
  else false

/-- `isTelegramPendingExpired`: orphaned or past its TTL. -/
def isTelegramPendingExpired (env : pendingEnv) (rec : telegramPendingRecord) (now : Int) : Bool :=
  isTelegramPendingOrphaned env rec || isTelegramPendingTTLExpired rec now

/-- The pending file: a map keyed by `request_id`, as an association list. -/
def pendingState := List (String × telegramPendingRecord)

/-- `pruneExpiredPendingRecords`. -/
def pruneExpiredPendingRecords (env : pendingEnv) (now : Int) (state : List (String × telegramPendingRecord)) :
    List (String × telegramPendingRecord) :=
  state.filter (fun kv => !(isTelegramPendingExpired env kv.2 now))

/-- Go map assignment `state[k] = rec`: replace any binding of `k`, append. -/
def pendingInsert (k : String) (rec : telegramPendingRecord)
    (state : List (String × telegramPendingRecord)) : List (String × telegramPendingRecord) :=
  state.filter (fun kv => kv.1 ≠ k) ++ [(k, rec)]

/-- `telegramPendingStore.Upsert`: default a zero `created_at` to `now` and a
zero `expires_at` to `created_at + 24h`, prune, write the record. -/
def telegramPendingUpsert (env : pendingEnv) (now : Int) (rec : telegramPendingRecord)
    (state : List (String × telegramPendingRecord)) : List (String × telegramPendingRecord) :=
  let rec1 := if rec.createdAt = 0 then { rec with createdAt := now } else rec
  let rec2 :=
    if rec1.expiresAt = 0 then { rec1 with expiresAt := rec1.createdAt + telegramPendingLegacyTTL }
    else rec1
  pendingInsert rec2.requestID rec2 (pruneExpiredPendingRecords env now state)

/-- `telegramPendingStore.Get`: prune, then look up. -/
def telegramPendingGet (env : pendingEnv) (now : Int) (requestID : String)
    (state : List (String × telegramPendingRecord)) :
    Option telegramPendingRecord × List (String × telegramPendingRecord) :=
  let pruned := pruneExpiredPendingRecords env now state
  (pruned.lookup requestID, pruned)

/-- `telegramPendingStore.Delete`. -/
def telegramPendingDelete (env : pendingEnv) (now : Int) (requestID : String)
    (state : List (String × telegramPendingRecord)) : List (String × telegramPendingRecord) :=
  (pruneExpiredPendingRecords env now state).filter (fun kv => kv.1 ≠ requestID)

/-- `telegramPendingStore.CountByChat`. -/
def telegramPendingCountByChat (env : pendingEnv) (now : Int) (chatID : Int)
    (state : List (String × telegramPendingRecord)) : Int :=
  ((pruneExpiredPendingRecords env now state).filter (fun kv => kv.2.chatID = chatID)).length

/-! ## Telegram provider reply construction (the `Receive` scan in src) -/

/-- The reply a matched inbound message produces (`Receive`, the
`contract.Reply` literal): both `text` and `raw` are bound to the trimmed
message text, `provider_message_id` is the decimal message id. -/
def telegramReplyOfMessage (requestID : String) (msg : telegramMessage) : Reply :=
  let text := goTrimSpace msg.text
  { requestID := requestID
    text := text
    raw := text
    providerMessageID := toString msg.messageID
    receivedAt := msg.date
    sender :=
      match msg.fromUser with
      | none => ""
      | some u =>
        if goTrimSpace u.username ≠ "" then u.username
        else goTrimSpace (u.firstName ++ " " ++ u.lastName) }

/-! ## Choice classification (cmd ask: classifyChoiceReply) -/

/-- `normalizeChoiceID`: trim, upper-case, strip surrounding brackets/dot. -/
def normalizeChoiceID (v : String) : String :=
  let v := goTrimSpace v
  if v = "" then ""
  else goTrimCutset (goToUpper v) ['(', ')', '[', ']', '\x7b', '\x7d', '<', '>', '.']

/-- `splitReplyTokens`: split on `, ; \n \t space`, strip surrounding
brackets/dot then whitespace from each field, drop empties. -/
def splitReplyTokens (s : String) : List String :=
  (goFieldsFunc s (fun r => r = ',' ∨ r = ';' ∨ r = '\n' ∨ r = '\t' ∨ r = ' ')).filterMap
    (fun f =>
      let trimmed := goTrimSpace (goTrimCutset f ['(', ')', '[', ']', '\x7b', '\x7d', '<', '>', '.'])
      if trimmed = "" then none else some trimmed)

/-- The `byID` map of `classifyChoiceReply`, used for membership only. -/
def choiceNormalizedIDs (choices : List Choice) : List String :=
  choices.map (fun c => normalizeChoiceID c.id)

/-- The `byText` map of `classifyChoiceReply`: keyed by lower-cased trimmed
choice text; a Go map insertion overwrites, so lookup takes the last match. -/
def choiceByTextLookup (choices : List Choice) (key : String) : Option String :=
  ((choices.map (fun c => (goToLower (goTrimSpace c.text), normalizeChoiceID c.id))).reverse).lookup key

/-- Append `x` unless already selected (the `selectedSet` dedup). -/
def addUnique (l : List String) (x : String) : List String :=
  if l.contains x then l else l ++ [x]

/-- The token loop of `classifyChoiceReply`: id match first, then 1-based
index, then choice-text match; a token that parses as a number but is out of
range selects nothing (the `continue` after `Atoi`). -/
def classifyTokens (choices : List Choice) : List String → List String → List String
  | [], selected => selected
  | token :: rest, selected =>
    let n := normalizeChoiceID token
    if (choiceNormalizedIDs choices).contains n then
      classifyTokens choices rest (addUnique selected n)
    else
      match goAtoi n with
      | some idx =>
        if 1 ≤ idx ∧ idx ≤ (choices.length : Int) then
          match choices.get? (idx - 1).toNat with
          | some ch => classifyTokens choices rest (addUnique selected (normalizeChoiceID ch.id))
          | none => classifyTokens choices rest selected
        else
          classifyTokens choices rest selected
      | none =>
        match choiceByTextLookup choices (goToLower (goTrimSpace token)) with
        | some id => classifyTokens choices rest (addUnique selected id)
        | none => classifyTokens choices rest selected

/-- `classifyChoiceReply`: returns `(selected ids, other text)`. -/
def classifyChoiceReply (req : AskRequest) (raw : String) : List String × String :=
  let text := goTrimSpace raw
  if text = "" then ([], "")
  else if !(goContainsAny text [',', ';', '\n']) ∧ goContainsChar text ' ' then
    -- Sentence guard: only the exact-text and `other` branches apply.
    match choiceByTextLookup req.choices (goToLower (goTrimSpace text)) with
    | some id => ([id], "")
    | none =>
      if req.allowOther then
        let trimmedLower := goToLower (goTrimSpace text)
        if goStartsWith trimmedLower "other:" then ([], goTrimSpace (goDropChars text 6))
        else ([], text)
      else ([], "")
  else
    let selected := sortStrings (classifyTokens req.choices (splitReplyTokens text) [])
    if selected ≠ [] then
      if goStartsWith (goToLower text) "other:" then (selected, goTrimSpace (goDropChars text 6))
      else (selected, "")
    else if req.allowOther then
      let trimmed := goTrimSpace text
      let trimmedLower := goToLower trimmed
      if goStartsWith trimmedLower "other:" then ([], goTrimSpace (goDropChars trimmed 6))
      else if goEqualFold trimmed "other" then ([], "")
      else ([], trimmed)
    else ([], "")

/-! ## Spec-modelled fragments of the missing telegram.go -/

/-- Modelled from the spec: src lacks telegram.go (only its tests are
present), which defines the grace added to the caller's deadline when the
pending record is registered; the spec fixes no value ("small grace
window"), and no theorem below depends on this one. -/
def telegramPendingExpiryGrace : Int := 60

/-- Modelled from the spec: the record built by the missing
`TelegramProvider.registerPending` on the Sending → Registered transition —
`created_at = now`, `expires_at = deadline + grace`, the owner's pid and the
lower-cased local hostname. -/
def registerPendingRecord (requestID : String) (chatID messageID : Int)
    (now deadline : Int) (pid : Int) (hostname : String) : telegramPendingRecord :=
  { requestID := requestID
    chatID := chatID
    messageID := messageID
    createdAt := now
    expiresAt := deadline + telegramPendingExpiryGrace
    ownerPID := pid
    ownerHost := loadTelegramLocalHostname hostname }

/-- Modelled from the spec: the Sending → Registered transition persists the
record through the (src) pending-store `Upsert`. -/
def registerPending (env : pendingEnv) (now deadline : Int) (requestID : String)
    (chatID messageID : Int) (pid : Int) (hostname : String)
    (state : List (String × telegramPendingRecord)) : List (String × telegramPendingRecord) :=
  telegramPendingUpsert env now
    (registerPendingRecord requestID chatID messageID now deadline pid hostname) state

/-- The error taxonomy variants the webhook precondition distinguishes. -/
inductive telegramAskError where
  | configError (message : String)
  | providerError (message : String)
  deriving Repr, DecidableEq

/-- What the Send pipeline did: the prompts pushed to `send_message` and the
final outcome. -/
structure telegramSendTrace where
  sentMessages : List String
  result : Except telegramAskError Int
  deriving Repr

/-- Modelled from the spec: src lacks telegram.go's `Send` webhook
precondition (only its test is present); per the spec's Validating step,
`get_webhook_info().url` must be empty, otherwise the ask fails fast with a
`ConfigError` mentioning the webhook and `send_message` is never called. -/
def telegramSendPipeline (webhookURL : String) (prompt : String) (promptMessageID : Int) :
    telegramSendTrace :=
  if webhookURL ≠ "" then
    { sentMessages := []
      result := Except.error (telegramAskError.configError
        "telegram webhook is configured; delete the webhook to use polling mode") }
  else
    { sentMessages := [prompt], result := Except.ok promptMessageID }

/-- The accept shape of the matching policy for free text: same chat,
untyped (`reply_to = 0`), newer than the prompt.  In the multi-pending
regime this shape is dropped with a reminder; in the single-pending
fallback it is accepted. -/
def isNewerFreeText (chatID targetMessageID : Int) (e : telegramInboxEntry) : Bool :=
  decide (e.chatID = chatID) && decide (e.replyToMessageID = 0) &&
    decide (targetMessageID < e.messageID)

/-- Entries the multi-pending scan leaves in place: other chats, or threaded
replies (to other prompts). -/
def isOtherChatOrThreaded (chatID : Int) (e : telegramInboxEntry) : Bool :=
  decide (e.chatID ≠ chatID) || decide (e.replyToMessageID ≠ 0)

/-- Entries of a different chat (never touched by the scan). -/
def isOtherChat (chatID : Int) (e : telegramInboxEntry) : Bool :=
  decide (e.chatID ≠ chatID)

/-! ## Shared lemmas -/

theorem List.filter_idem {α : Type} (p : α → Bool) (l : List α) :
    (l.filter p).filter p = l.filter p := by
  induction l with
  | nil => rfl
  | cons x xs ih =>
    by_cases hx : p x
    · simp [List.filter_cons, hx, ih]
    · simp [List.filter_cons, hx, ih]

theorem pruneInboxEntries_eq_self {now : Int} {l : List telegramInboxEntry}
    (h : ∀ e ∈ l, e.expiresAt = 0 ∨ now < e.expiresAt) : pruneInboxEntries now l = l := by
  unfold pruneInboxEntries
  rw [List.filter_eq_self]
  intro e he
  rcases h e he with h0 | h0 <;> simp [h0]

theorem pruneInboxState_eq_self {now : Int} {s : telegramInboxState}
    (h : ∀ e ∈ s.entries, e.expiresAt = 0 ∨ now < e.expiresAt) : pruneInboxState now s = s := by
  unfold pruneInboxState
  rw [pruneInboxEntries_eq_self h]

theorem lookup_append_singleton {β : Type} {k : String} {r : β}
    {l : List (String × β)} (h : ∀ kv ∈ l, kv.1 ≠ k) :
    (l ++ [(k, r)]).lookup k = some r := by
  induction l with
  | nil => simp [List.lookup]
  | cons kv rest ih =>
    have hk : kv.1 ≠ k := h kv (by simp)
    have : (k == kv.1) = false := by
      simpa [beq_iff_eq] using fun he => hk he.symm
    simp only [List.cons_append, List.lookup, this]
    exact ih (fun x hx => h x (by simp [hx]))

theorem lookup_pendingInsert (k : String) (r : telegramPendingRecord)
    (l : List (String × telegramPendingRecord)) :
    (pendingInsert k r l).lookup k = some r := by
  unfold pendingInsert
  apply lookup_append_singleton
  intro kv hkv
  have := List.mem_filter.mp hkv
  simpa using this.2

theorem goTrimSpace_data (s : String) :
    (goTrimSpace s).data =
      List.rdropWhile Char.isWhitespace (List.dropWhile Char.isWhitespace s.data) := rfl

theorem dropWhile_eq_cons_not {α : Type} (p : α → Bool) (d : List α) (b : α) (t : List α)
    (h : d.dropWhile p = b :: t) : ¬ p b := by
  induction d with
  | nil => simp [List.dropWhile] at h
  | cons x xs ih =>
    by_cases hx : p x
    · rw [List.dropWhile_cons_of_pos hx] at h
      exact ih h
    · rw [List.dropWhile_cons_of_neg hx] at h
      cases h
      exact hx

theorem goTrimSpace_idem (s : String) : goTrimSpace (goTrimSpace s) = goTrimSpace s := by
  have hB : ∀ (d : List Char),
      List.dropWhile Char.isWhitespace
          (List.rdropWhile Char.isWhitespace (List.dropWhile Char.isWhitespace d)) =
        List.rdropWhile Char.isWhitespace (List.dropWhile Char.isWhitespace d) := by
    intro d
    cases hC : List.rdropWhile Char.isWhitespace (List.dropWhile Char.isWhitespace d) with
    | nil => simp
    | cons b B2 =>
      have hpre : b :: B2 <+: List.dropWhile Char.isWhitespace d := by
        rw [← hC]
        exact List.rdropWhile_prefix _ _
      obtain ⟨t, ht⟩ := hpre
      have hdw : List.dropWhile Char.isWhitespace d = b :: (B2 ++ t) := by
        rw [← ht]
        simp
      have hb := dropWhile_eq_cons_not Char.isWhitespace d b (B2 ++ t) hdw
      simp [List.dropWhile_cons, hb]
  cases s with
  | mk d =>
    apply String.ext
    rw [goTrimSpace_data, goTrimSpace_data]
    show List.rdropWhile _ (List.dropWhile _
        (List.rdropWhile Char.isWhitespace (List.dropWhile Char.isWhitespace d))) = _
    rw [hB d, List.rdropWhile_idempotent]

/-! ## Claim theorems -/

/-- C10: pruning both stores is idempotent at a fixed `now`: applying the
pending-record prune or the inbox-entry prune twice yields the state of
applying it once. -/
theorem prune_idempotent (env : pendingEnv) (now : Int)
    (pending : List (String × telegramPendingRecord)) (inbox : telegramInboxState) :
    pruneExpiredPendingRecords env now (pruneExpiredPendingRecords env now pending) =
      pruneExpiredPendingRecords env now pending ∧
    pruneInboxState now (pruneInboxState now inbox) = pruneInboxState now inbox := by
  constructor
  · unfold pruneExpiredPendingRecords
    exact List.filter_idem _ _
  · show ({ pruneInboxState now inbox with
      entries := pruneInboxEntries now (pruneInboxState now inbox).entries } : telegramInboxState) = _
    unfold pruneInboxState pruneInboxEntries
    simp [List.filter_idem]

/-- C6 counterexample: a record with a dead owner pid and an *empty*
`owner_host` is evicted on liveness grounds although its `owner_host` does
not equal the (non-empty) local host, so "evicts ... if and only if the
record's owner_host equals the local host and the pid is absent" fails. -/
theorem orphan_empty_host_counterexample :
    isTelegramPendingOrphaned
        ⟨false, "myhost", fun _ => false⟩
        ⟨"req-cex", 1, 2, 10, 10000, 77, ""⟩ = true ∧
    (⟨"req-cex", 1, 2, 10, 10000, 77, ""⟩ : telegramPendingRecord).ownerHost ≠
      (⟨false, "myhost", fun _ => false⟩ : pendingEnv).localHostname := by
  refine ⟨by decide, by decide⟩

/-- C6 (amended): on a non-Windows host, liveness eviction applies exactly to
records with a positive `owner_pid` whose liveness probe reports absent and
whose `owner_host` is either empty (legacy records are treated as local) or
equal — case-insensitively, after trimming — to the non-empty local host; a
record whose `owner_host` is non-empty and different from the local host is
only ever removed by TTL; and any pruning pass removes a dead-owner local
record regardless of its `expires_at`. -/
theorem orphan_liveness_rules (env : pendingEnv) (rec : telegramPendingRecord)
    (now : Int) (state : List (String × telegramPendingRecord)) (k : String) :
    (isTelegramPendingOrphaned env rec = true ↔
      (0 < rec.ownerPID ∧ env.goosWindows = false ∧ processExists env rec.ownerPID = false ∧
        (rec.ownerHost = "" ∨
          (env.localHostname ≠ "" ∧
            goEqualFold (goTrimSpace rec.ownerHost) env.localHostname = true)))) ∧
    (rec.ownerHost ≠ "" →
      goEqualFold (goTrimSpace rec.ownerHost) env.localHostname = false →
      isTelegramPendingExpired env rec now = isTelegramPendingTTLExpired rec now) ∧
    (0 < rec.ownerPID → env.goosWindows = false → processExists env rec.ownerPID = false →
      env.localHostname ≠ "" → goEqualFold (goTrimSpace rec.ownerHost) env.localHostname = true →
      (k, rec) ∉ pruneExpiredPendingRecords env now state) := by
  have horph : isTelegramPendingOrphaned env rec = true ↔
      (0 < rec.ownerPID ∧ env.goosWindows = false ∧ processExists env rec.ownerPID = false ∧
        (rec.ownerHost = "" ∨
          (env.localHostname ≠ "" ∧
            goEqualFold (goTrimSpace rec.ownerHost) env.localHostname = true))) := by
    unfold isTelegramPendingOrphaned
    split_ifs with h1 h2
    · constructor
      · intro h
        exact absurd h (by decide)
      · rintro ⟨hp, hw, -, -⟩
        rcases h1 with h1 | h1
        · omega
        · rw [hw] at h1
          exact absurd h1 (by decide)
    · constructor
      · intro h
        exact absurd h (by decide)
      · rintro ⟨-, -, -, h3 | ⟨hl, hf⟩⟩
        · exact absurd h3 h2.1
        · rcases h2.2 with h4 | h4
          · exact absurd h4 hl
          · rw [hf] at h4
            exact absurd h4 (by decide)
    · push_neg at h1
      obtain ⟨h11, h12⟩ := h1
      push_neg at h2
      constructor
      · intro h3
        refine ⟨by omega, by simpa using h12, by simpa using h3, ?_⟩
        by_cases hh : rec.ownerHost = ""
        · exact Or.inl hh
        · obtain ⟨hl, hf⟩ := h2 hh
          refine Or.inr ⟨hl, ?_⟩
          cases hfold : goEqualFold (goTrimSpace rec.ownerHost) env.localHostname
          · exact absurd hfold hf
          · rfl
      · rintro ⟨-, -, h3, -⟩
        simp [h3]
  refine ⟨horph, ?_, ?_⟩
  · intro hh hf
    unfold isTelegramPendingExpired
    have hfalse : isTelegramPendingOrphaned env rec = false := by
      cases horp : isTelegramPendingOrphaned env rec
      · rfl
      · exfalso
        rcases (horph.mp horp).2.2.2 with h4 | ⟨-, h4⟩
        · exact hh h4
        · rw [hf] at h4
          exact absurd h4 (by decide)
    rw [hfalse]
    simp
  · intro hp hw hal hl hf hmem
    have horphT : isTelegramPendingOrphaned env rec = true :=
      horph.mpr ⟨hp, hw, hal, Or.inr ⟨hl, hf⟩⟩
    have hexp : isTelegramPendingExpired env rec now = true := by
      unfold isTelegramPendingExpired
      rw [horphT]
      simp
    have hkeep := (List.mem_filter.mp hmem).2
    rw [hexp] at hkeep
    simp at hkeep

/-- C6 witness: a foreign-host record is pruned only per TTL, and a local
dead-owner record with `expires_at` 10000 is gone from the store at time 20. -/
theorem orphan_liveness_rules_witness :
    ("req-w6a" : String) ≠ "" ∧
    isTelegramPendingExpired ⟨false, "otherhost", fun _ => false⟩
        ⟨"req-w6a", 5, 6, 10, 10000, 88, " MyHost "⟩ 20 =
      isTelegramPendingTTLExpired ⟨"req-w6a", 5, 6, 10, 10000, 88, " MyHost "⟩ 20 ∧
    ("req-w6b", (⟨"req-w6b", 5, 6, 10, 10000, 88, " MyHost "⟩ : telegramPendingRecord)) ∉
      pruneExpiredPendingRecords ⟨false, "myhost", fun _ => false⟩ 20
        [("req-w6b", ⟨"req-w6b", 5, 6, 10, 10000, 88, " MyHost "⟩)] := by
  refine ⟨by decide, ?_, ?_⟩
  · exact (orphan_liveness_rules ⟨false, "otherhost", fun _ => false⟩
      ⟨"req-w6a", 5, 6, 10, 10000, 88, " MyHost "⟩ 20 [] "k").2.1 (by decide) (by decide)
  · exact (orphan_liveness_rules ⟨false, "myhost", fun _ => false⟩
      ⟨"req-w6b", 5, 6, 10, 10000, 88, " MyHost "⟩ 20
      [("req-w6b", ⟨"req-w6b", 5, 6, 10, 10000, 88, " MyHost "⟩)] "req-w6b").2.2
      (by decide) (by decide) (by decide) (by decide) (by decide)

/-- C7 counterexample: for the inbound message " hi " the emitted reply has
`raw = "hi"`, which is not the untrimmed original text " hi ". -/
theorem reply_raw_not_untrimmed :
    (telegramReplyOfMessage "req-7c" ⟨41, 7, " hi ", 4242, none, none⟩).raw = "hi" ∧
    (telegramReplyOfMessage "req-7c" ⟨41, 7, " hi ", 4242, none, none⟩).raw ≠ " hi " ∧
    (telegramReplyOfMessage "req-7c" ⟨41, 7, " hi ", 4242, none, none⟩).text = "hi" := by
  refine ⟨by decide, by decide, by decide⟩

/-- C7 (amended): the emitted Reply's `raw` field equals its `text` field —
both are the trimmed message text; the untrimmed original is not preserved
(the inbox likewise only ever stores the trimmed text). -/
theorem reply_raw_is_trimmed (requestID : String) (msg : telegramMessage) :
    (telegramReplyOfMessage requestID msg).raw = (telegramReplyOfMessage requestID msg).text ∧
    (telegramReplyOfMessage requestID msg).text = goTrimSpace msg.text ∧
    (∀ (now : Int) (u : telegramUpdate) (m2 : telegramMessage) (e : telegramInboxEntry),
      u.message = some m2 → entryFromUpdate now u = some e → e.text = goTrimSpace m2.text) := by
  refine ⟨rfl, rfl, ?_⟩
  intro now u m2 e hm he
  unfold entryFromUpdate at he
  rw [hm] at he
  by_cases ht : goTrimSpace m2.text = ""
  · simp only [ht, if_pos] at he
    exact absurd he (by simp)
  · simp only [ht, if_neg] at he
    have hrec := Option.some.inj he
    rw [← hrec]

/-- C7 witness: the ingestion hypothesis discharged on the update carrying
" ok ": the admitted entry's text is the trimmed form. -/
theorem reply_raw_is_trimmed_witness :
    (⟨5, some ⟨1050, 7, " ok ", 4242, none, none⟩⟩ : telegramUpdate).message =
      some ⟨1050, 7, " ok ", 4242, none, none⟩ ∧
    entryFromUpdate 100 ⟨5, some ⟨1050, 7, " ok ", 4242, none, none⟩⟩ =
      some ⟨5, 4242, 1050, 0, "ok", 7, "", "", "", 100, 400⟩ ∧
    (⟨5, 4242, 1050, 0, "ok", 7, "", "", "", 100, 400⟩ : telegramInboxEntry).text =
      goTrimSpace " ok " :=
  ⟨by decide, by decide,
    (reply_raw_is_trimmed "w7" ⟨1050, 7, " ok ", 4242, none, none⟩).2.2 100
      ⟨5, some ⟨1050, 7, " ok ", 4242, none, none⟩⟩ ⟨1050, 7, " ok ", 4242, none, none⟩
      ⟨5, 4242, 1050, 0, "ok", 7, "", "", "", 100, 400⟩ (by decide) (by decide)⟩

/-- C4 (spec-modelled): whenever the upstream reports a non-empty webhook
URL, the ask fails with a ConfigError whose message contains "webhook" and
no message is ever sent. -/
theorem send_webhook_precondition (url prompt : String) (mid : Int) (h : url ≠ "") :
    (telegramSendPipeline url prompt mid).sentMessages = [] ∧
    (telegramSendPipeline url prompt mid).result =
      Except.error (telegramAskError.configError
        "telegram webhook is configured; delete the webhook to use polling mode") ∧
    ∃ pre post,
      ("telegram webhook is configured; delete the webhook to use polling mode" : String) =
        pre ++ "webhook" ++ post := by
  refine ⟨?_, ?_,
    ⟨"telegram ", " is configured; delete the webhook to use polling mode", by decide⟩⟩
  · unfold telegramSendPipeline
    rw [if_pos h]
  · unfold telegramSendPipeline
    rw [if_pos h]

/-- C4 witness: the precondition instantiated at the webhook URL "https://x". -/
theorem send_webhook_precondition_witness :
    ("https://x" : String) ≠ "" ∧
    (telegramSendPipeline "https://x" "prompt" 9).sentMessages = [] ∧
    (telegramSendPipeline "https://x" "prompt" 9).result =
      Except.error (telegramAskError.configError
        "telegram webhook is configured; delete the webhook to use polling mode") :=
  ⟨by decide, (send_webhook_precondition "https://x" "prompt" 9 (by decide)).1,
    (send_webhook_precondition "https://x" "prompt" 9 (by decide)).2.1⟩

/-- C5 (spec-modelled registration, src `Upsert`): after the Sending →
Registered transition under caller deadline `deadline`, the persisted record
has `expires_at = deadline + grace` (not the legacy `created_at + 24h`) and
carries the owner pid and the lower-cased trimmed hostname. -/
theorem register_pending_expiry (env : pendingEnv) (now deadline : Int) (requestID : String)
    (chatID messageID : Int) (pid : Int) (hostname : String)
    (state : List (String × telegramPendingRecord))
    (hgrace : deadline + telegramPendingExpiryGrace ≠ 0) :
    (registerPending env now deadline requestID chatID messageID pid hostname state).lookup
        requestID =
      some
        { requestID := requestID, chatID := chatID, messageID := messageID,
          createdAt := now, expiresAt := deadline + telegramPendingExpiryGrace,
          ownerPID := pid, ownerHost := goToLower (goTrimSpace hostname) } ∧
    (deadline + telegramPendingExpiryGrace ≠ now + telegramPendingLegacyTTL →
      ∀ r : telegramPendingRecord,
        (registerPending env now deadline requestID chatID messageID pid hostname state).lookup
            requestID = some r →
        r.expiresAt ≠ now + telegramPendingLegacyTTL) := by
  have hmain :
      (registerPending env now deadline requestID chatID messageID pid hostname state).lookup
          requestID =
        some
          { requestID := requestID, chatID := chatID, messageID := messageID,
            createdAt := now, expiresAt := deadline + telegramPendingExpiryGrace,
            ownerPID := pid, ownerHost := goToLower (goTrimSpace hostname) } := by
    unfold registerPending telegramPendingUpsert registerPendingRecord loadTelegramLocalHostname
    simp only [hgrace]
    split
    · simp only [hgrace, if_neg]
      exact lookup_pendingInsert _ _ _
    · simp only [hgrace, if_neg]
      exact lookup_pendingInsert _ _ _
  refine ⟨hmain, ?_⟩
  intro hne r hr
  rw [hmain] at hr
  have := Option.some.inj hr
  rw [← this]
  exact hne

/-- C5 witness: registration at `now = 100`, deadline 1000, pid 500, host
" MyHost " persists expiry `1000 + grace` and the lower-cased hostname. -/
theorem register_pending_expiry_witness :
    ((1000 : Int) + telegramPendingExpiryGrace ≠ 0) ∧
    (registerPending ⟨false, "myhost", fun _ => true⟩ 100 1000 "req-w5" 42 77 500
          " MyHost " []).lookup "req-w5" =
      some ⟨"req-w5", 42, 77, 100, 1000 + telegramPendingExpiryGrace, 500,
        goToLower (goTrimSpace " MyHost ")⟩ ∧
    goToLower (goTrimSpace " MyHost ") = "myhost" :=
  ⟨by decide,
    (register_pending_expiry ⟨false, "myhost", fun _ => true⟩ 100 1000 "req-w5" 42 77 500
      " MyHost " [] (by decide)).1,
    by decide⟩

theorem lookup_append_of_some {β : Type} {k : String} {v : β} {A B : List (String × β)}
    (h : A.lookup k = some v) : (A ++ B).lookup k = some v := by
  induction A with
  | nil => simp [List.lookup] at h
  | cons kv rest ih =>
    cases hbeq : (k == kv.1) <;> simp only [List.cons_append, List.lookup, hbeq] at h ⊢
    · exact ih h
    · exact h

theorem choiceByTextLookup_of_mem (choices : List Choice) (c : Choice)
    (hnodup : (choices.map (fun ch => goToLower (goTrimSpace ch.text))).Nodup)
    (hc : c ∈ choices) :
    choiceByTextLookup choices (goToLower (goTrimSpace c.text)) = some (normalizeChoiceID c.id) := by
  induction choices with
  | nil => cases hc
  | cons ch rest ih =>
    unfold choiceByTextLookup
    simp only [List.map_cons, List.reverse_cons]
    rcases List.mem_cons.mp hc with hceq | hcrest
    · subst hceq
      apply lookup_append_singleton
      intro kv hkv
      simp only [List.mem_reverse, List.mem_map] at hkv
      obtain ⟨ch2, hch2, hkv2⟩ := hkv
      intro hkey
      rw [← hkv2] at hkey
      simp only at hkey
      have hkeys := (List.nodup_cons.mp hnodup).1
      apply hkeys
      show goToLower (goTrimSpace c.text) ∈
        List.map (fun ch => goToLower (goTrimSpace ch.text)) rest
      rw [← hkey]
      exact List.mem_map_of_mem (fun ch => goToLower (goTrimSpace ch.text)) hch2
    · have hmain := ih (List.nodup_cons.mp hnodup).2 hcrest
      unfold choiceByTextLookup at hmain
      exact lookup_append_of_some hmain

/-- C9 counterexample: with choices `A:foo` and `B:1`, the reply "1" equals
choice B's text exactly (trimmed, lower-cased), yet classification resolves
the token as the 1-based index 1 and returns `["A"]`, not `["B"]`. -/
theorem classify_exact_text_counterexample :
    classifyChoiceReply ⟨"req-9c", "q", [⟨"A", "foo"⟩, ⟨"B", "1"⟩], false⟩ "1" = (["A"], "") ∧
    goToLower (goTrimSpace "1") = goToLower (goTrimSpace (Choice.text ⟨"B", "1"⟩)) ∧
    (["A"] : List String) ≠ [Choice.id ⟨"B", "1"⟩] := by
  refine ⟨by decide, by decide, by decide⟩

/-- C9 (amended): the exact choice-text rule holds on the sentence-guard
branch: when the reply contains a space but none of `, ; \n` and its trimmed
lower-cased form equals the trimmed lower-cased text of a choice `c` (choice
texts pairwise distinct after that normalization), classification returns
exactly `[normalizeChoiceID c.id]` with empty other-text.  Outside that
branch the token rules run first, so an id or 1-based-index token can win
over an exact text match. -/
theorem classify_exact_text_sentence (choices : List Choice) (allowOther : Bool)
    (requestID question : String) (raw : String) (c : Choice)
    (hnodup : (choices.map (fun ch => goToLower (goTrimSpace ch.text))).Nodup)
    (hc : c ∈ choices)
    (hsentence : goContainsAny (goTrimSpace raw) [',', ';', '\n'] = false)
    (hspace : goContainsChar (goTrimSpace raw) ' ' = true)
    (hmatch : goToLower (goTrimSpace raw) = goToLower (goTrimSpace c.text)) :
    classifyChoiceReply ⟨requestID, question, choices, allowOther⟩ raw =
      ([normalizeChoiceID c.id], "") := by
  have htext : goTrimSpace raw ≠ "" := by
    intro h0
    rw [h0] at hspace
    exact absurd hspace (by decide)
  unfold classifyChoiceReply
  rw [if_neg htext]
  have hcond : ((!goContainsAny (goTrimSpace raw) [',', ';', '\n']) = true ∧
      goContainsChar (goTrimSpace raw) ' ' = true) := by
    constructor
    · rw [hsentence]
      rfl
    · exact hspace
  rw [if_pos hcond]
  rw [goTrimSpace_idem, hmatch, choiceByTextLookup_of_mem choices c hnodup hc]

/-- C9 witness: the sentence-form reply "ship it" matching the single
choice `A: ship it` classifies to `["A"]`. -/
theorem classify_exact_text_sentence_witness :
    ([(⟨"A", "ship it"⟩ : Choice)].map (fun ch => goToLower (goTrimSpace ch.text))).Nodup ∧
    goContainsAny (goTrimSpace "ship it") [',', ';', '\n'] = false ∧
    goContainsChar (goTrimSpace "ship it") ' ' = true ∧
    classifyChoiceReply ⟨"req-w9", "q", [⟨"A", "ship it"⟩], false⟩ "ship it" =
      ([normalizeChoiceID (Choice.id ⟨"A", "ship it"⟩)], "") :=
  ⟨by decide, by decide, by decide,
    classify_exact_text_sentence [⟨"A", "ship it"⟩] false "req-w9" "q" "ship it"
      ⟨"A", "ship it"⟩ (by decide) (by decide) (by decide) (by decide) (by decide)⟩

theorem claimScan_append_skip (c t pc : Int) (pre rest : List telegramInboxEntry)
    (hpre : ∀ x ∈ pre, x.chatID ≠ c) :
    claimScan c t pc (pre ++ rest) =
      ((claimScan c t pc rest).1, (claimScan c t pc rest).2.1,
        pre ++ (claimScan c t pc rest).2.2) := by
  induction pre with
  | nil => simp
  | cons x xs ih =>
    have hx : x.chatID ≠ c := hpre x (by simp)
    have ih2 := ih (fun y hy => hpre y (by simp [hy]))
    simp [claimScan, hx, ih2]

theorem claimScan_multi (c t pc : Int) (hpc : 1 < pc) :
    ∀ l : List telegramInboxEntry, (∀ x ∈ l, x.chatID = c → x.replyToMessageID ≠ t) →
      claimScan c t pc l =
        (none, l.any (isNewerFreeText c t), l.filter (isOtherChatOrThreaded c)) := by
  intro l
  induction l with
  | nil => intro h; simp [claimScan]
  | cons e rest ih =>
    intro h
    have hrest := ih (fun x hx hc2 => h x (by simp [hx]) hc2)
    by_cases hchat : e.chatID = c
    · have hrep : e.replyToMessageID ≠ t := h e (by simp) hchat
      have h2 : ¬(0 < t ∧ e.replyToMessageID = t) := fun hh => hrep hh.2
      by_cases hzero : e.replyToMessageID = 0
      · by_cases h4 : t < e.messageID
        · have hsc : claimScan c t pc (e :: rest) =
              ((claimScan c t pc rest).1, true, (claimScan c t pc rest).2.2) := by
            simp only [claimScan]
            rw [if_neg (by simp [hchat]), if_neg h2, if_pos hpc, if_pos ⟨hzero, h4⟩]
          rw [hsc, hrest]
          simp [isNewerFreeText, isOtherChatOrThreaded, hchat, hzero, h4]
        · have h5 : e.messageID ≤ t := by omega
          have hsc : claimScan c t pc (e :: rest) = claimScan c t pc rest := by
            simp only [claimScan]
            rw [if_neg (by simp [hchat]), if_neg h2, if_pos hpc,
              if_neg (fun hh => h4 hh.2), if_pos ⟨hzero, h5⟩]
          rw [hsc, hrest]
          simp [isNewerFreeText, isOtherChatOrThreaded, hchat, hzero, h4]
      · have hsc : claimScan c t pc (e :: rest) =
            ((claimScan c t pc rest).1, (claimScan c t pc rest).2.1,
              e :: (claimScan c t pc rest).2.2) := by
          simp only [claimScan]
          rw [if_neg (by simp [hchat]), if_neg h2, if_pos hpc,
            if_neg (fun hh => hzero hh.1), if_neg (fun hh => hzero hh.1)]
        rw [hsc, hrest]
        simp [isNewerFreeText, isOtherChatOrThreaded, hchat, hzero]
    · have hsc : claimScan c t pc (e :: rest) =
          ((claimScan c t pc rest).1, (claimScan c t pc rest).2.1,
            e :: (claimScan c t pc rest).2.2) := by
        simp only [claimScan]
        rw [if_pos hchat]
      rw [hsc, hrest]
      simp [isNewerFreeText, isOtherChatOrThreaded, hchat]

theorem claimScan_keep_all (c t pc : Int) (hpc : 1 < pc) :
    ∀ l : List telegramInboxEntry,
      (∀ x ∈ l, x.chatID = c → (x.replyToMessageID ≠ t ∧ x.replyToMessageID ≠ 0)) →
      claimScan c t pc l = (none, false, l) := by
  intro l
  induction l with
  | nil => intro h; simp [claimScan]
  | cons e rest ih =>
    intro h
    have hrest := ih (fun x hx hc2 => h x (by simp [hx]) hc2)
    by_cases hchat : e.chatID = c
    · obtain ⟨hrep, hzero⟩ := h e (by simp) hchat
      have h2 : ¬(0 < t ∧ e.replyToMessageID = t) := fun hh => hrep hh.2
      have hsc : claimScan c t pc (e :: rest) =
          ((claimScan c t pc rest).1, (claimScan c t pc rest).2.1,
            e :: (claimScan c t pc rest).2.2) := by
        simp only [claimScan]
        rw [if_neg (by simp [hchat]), if_neg h2, if_pos hpc,
          if_neg (fun hh => hzero hh.1), if_neg (fun hh => hzero hh.1)]
      rw [hsc, hrest]
    · have hsc : claimScan c t pc (e :: rest) =
          ((claimScan c t pc rest).1, (claimScan c t pc rest).2.1,
            e :: (claimScan c t pc rest).2.2) := by
        simp only [claimScan]
        rw [if_pos hchat]
      rw [hsc, hrest]

theorem claimScan_single (c t pc : Int) (hpc : pc ≤ 1) :
    ∀ l : List telegramInboxEntry, (∀ x ∈ l, x.chatID = c → x.replyToMessageID ≠ t) →
      (claimScan c t pc l).1 = l.find? (isNewerFreeText c t) ∧
      (claimScan c t pc l).2.1 = false ∧
      (l.find? (isNewerFreeText c t) = none →
        (claimScan c t pc l).2.2 = l.filter (isOtherChat c)) ∧
      (∀ e, l.find? (isNewerFreeText c t) = some e →
        (claimScan c t pc l).2.2.length < l.length) := by
  intro l
  induction l with
  | nil =>
    intro h
    refine ⟨by simp [claimScan], by simp [claimScan], fun _ => by simp [claimScan], ?_⟩
    intro e he
    simp at he
  | cons e rest ih =>
    intro h
    have hrest := ih (fun x hx hc2 => h x (by simp [hx]) hc2)
    have hnp : ¬(1 < pc) := by omega
    by_cases hchat : e.chatID = c
    · have hrep : e.replyToMessageID ≠ t := h e (by simp) hchat
      have h2 : ¬(0 < t ∧ e.replyToMessageID = t) := fun hh => hrep hh.2
      by_cases hzero : e.replyToMessageID = 0
      · by_cases h7 : e.messageID ≤ t
        · -- pre-request chatter: dropped quietly
          have hacc : ¬(isNewerFreeText c t e = true) := by
            simp [isNewerFreeText, hchat, hzero]
            omega
          have hsc : claimScan c t pc (e :: rest) = claimScan c t pc rest := by
            simp only [claimScan]
            rw [if_neg (by simp [hchat]), if_neg h2, if_neg hnp,
              if_neg (fun hh => hh.1 hzero), if_pos h7]
          refine ⟨?_, ?_, ?_, ?_⟩
          · rw [hsc, List.find?_cons_of_neg _ hacc, hrest.1]
          · rw [hsc, hrest.2.1]
          · intro hnone
            rw [List.find?_cons_of_neg _ hacc] at hnone
            rw [hsc, hrest.2.2.1 hnone]
            simp [isOtherChat, hchat]
          · intro e2 he2
            rw [List.find?_cons_of_neg _ hacc] at he2
            rw [hsc]
            have := hrest.2.2.2 e2 he2
            simp
            omega
        · -- accept
          have hacc : isNewerFreeText c t e = true := by
            simp [isNewerFreeText, hchat, hzero]
            omega
          have hsc : claimScan c t pc (e :: rest) = (some e, false, rest) := by
            simp only [claimScan]
            rw [if_neg (by simp [hchat]), if_neg h2, if_neg hnp,
              if_neg (fun hh => hh.1 hzero), if_neg h7]
          refine ⟨?_, ?_, ?_, ?_⟩
          · rw [hsc, List.find?_cons_of_pos _ hacc]
          · rw [hsc]
          · intro hnone
            rw [List.find?_cons_of_pos _ hacc] at hnone
            cases hnone
          · intro e2 he2
            rw [hsc]
            simp
      · -- threaded reply to another prompt: dropped
        have hacc : ¬(isNewerFreeText c t e = true) := by
          simp [isNewerFreeText, hchat, hzero]
        have hsc : claimScan c t pc (e :: rest) = claimScan c t pc rest := by
          simp only [claimScan]
          rw [if_neg (by simp [hchat]), if_neg h2, if_neg hnp, if_pos ⟨hzero, hrep⟩]
        refine ⟨?_, ?_, ?_, ?_⟩
        · rw [hsc, List.find?_cons_of_neg _ hacc, hrest.1]
        · rw [hsc, hrest.2.1]
        · intro hnone
          rw [List.find?_cons_of_neg _ hacc] at hnone
          rw [hsc, hrest.2.2.1 hnone]
          simp [isOtherChat, hchat]
        · intro e2 he2
          rw [List.find?_cons_of_neg _ hacc] at he2
          rw [hsc]
          have := hrest.2.2.2 e2 he2
          simp
          omega
    · -- other chat: kept
      have hacc : ¬(isNewerFreeText c t e = true) := by
        simp [isNewerFreeText, hchat]
      have hsc : claimScan c t pc (e :: rest) =
          ((claimScan c t pc rest).1, (claimScan c t pc rest).2.1,
            e :: (claimScan c t pc rest).2.2) := by
        simp only [claimScan]
        rw [if_pos hchat]
      refine ⟨?_, ?_, ?_, ?_⟩
      · rw [hsc, List.find?_cons_of_neg _ hacc, hrest.1]
      · rw [hsc, hrest.2.1]
      · intro hnone
        rw [List.find?_cons_of_neg _ hacc] at hnone
        rw [hsc]
        simp only [List.filter_cons]
        rw [hrest.2.2.1 hnone]
        simp [isOtherChat, hchat]
      · intro e2 he2
        rw [List.find?_cons_of_neg _ hacc] at he2
        rw [hsc]
        have := hrest.2.2.2 e2 he2
        simp
        omega

theorem ClaimForRequest_eq_of_fresh (now c t pc : Int) (s : telegramInboxState)
    (hfresh : ∀ x ∈ s.entries, x.expiresAt = 0 ∨ now < x.expiresAt) :
    ClaimForRequest now c t pc s =
      ((claimScan c t pc s.entries).1, (claimScan c t pc s.entries).2.1,
        ⟨s.nextUpdateID, (claimScan c t pc s.entries).2.2⟩) := by
  unfold ClaimForRequest
  rw [pruneInboxState_eq_self hfresh]

/-- C1: a threaded reply to the prompt (`reply_to_message_id = m > 0`, same
chat, non-empty ingested text, first same-chat entry in `update_id` order)
is accepted by `ClaimForRequest` for *every* `pending_count`, removed from
the inbox, and the reply built from its message has `text = trim(message
text)` and `provider_message_id = str(message_id)`. -/
theorem claim_accepts_threaded_reply (now ingestedAt c m pc : Int)
    (s : telegramInboxState) (pre post : List telegramInboxEntry)
    (u : telegramUpdate) (msg : telegramMessage) (e : telegramInboxEntry)
    (requestID : String)
    (hm : 0 < m)
    (hmsg : u.message = some msg)
    (hchat : msg.chatID = c)
    (hreply : msg.replyToMessageID = some m)
    (he : entryFromUpdate ingestedAt u = some e)
    (hents : s.entries = pre ++ e :: post)
    (hpre : ∀ x ∈ pre, x.chatID ≠ c)
    (hfresh : ∀ x ∈ s.entries, x.expiresAt = 0 ∨ now < x.expiresAt) :
    ClaimForRequest now c m pc s = (some e, false, ⟨s.nextUpdateID, pre ++ post⟩) ∧
    e.text = goTrimSpace msg.text ∧
    e.messageID = msg.messageID ∧
    (telegramReplyOfMessage requestID msg).text = goTrimSpace msg.text ∧
    (telegramReplyOfMessage requestID msg).providerMessageID = toString msg.messageID := by
  unfold entryFromUpdate at he
  rw [hmsg] at he
  by_cases htext : goTrimSpace msg.text = ""
  · simp only [htext, if_pos] at he
    exact absurd he (by simp)
  · simp only [htext, if_neg, hreply] at he
    rw [if_pos hm] at he
    have he2 := Option.some.inj he
    have hcid : e.chatID = c := by
      rw [← he2]
      exact hchat
    have hrid : e.replyToMessageID = m := by
      rw [← he2]
    have htxt : e.text = goTrimSpace msg.text := by
      rw [← he2]
    have hmid : e.messageID = msg.messageID := by
      rw [← he2]
    refine ⟨?_, htxt, hmid, rfl, rfl⟩
    rw [ClaimForRequest_eq_of_fresh now c m pc s hfresh, hents,
      claimScan_append_skip c m pc pre _ hpre]
    have hscan : claimScan c m pc (e :: post) = (some e, false, post) := by
      simp only [claimScan]
      rw [if_neg (by simp [hcid]), if_pos ⟨hm, hrid⟩]
    rw [hscan]

/-- C1 witness: the ingested reply " ship it " to prompt 1000 in chat 4242
is claimed under `pending_count = 3` and yields text "ship it" and
provider_message_id "1050". -/
theorem claim_accepts_threaded_reply_witness :
    (0 : Int) < 1000 ∧
    ClaimForRequest 200 4242 1000 3
        ⟨6, [⟨5, 4242, 1050, 1000, "ship it", 1111, "", "", "", 100, 1300⟩]⟩ =
      (some ⟨5, 4242, 1050, 1000, "ship it", 1111, "", "", "", 100, 1300⟩, false, ⟨6, []⟩) ∧
    (telegramReplyOfMessage "req-w1" ⟨1050, 1111, " ship it ", 4242, none, some 1000⟩).text =
      goTrimSpace " ship it " ∧
    (telegramReplyOfMessage "req-w1" ⟨1050, 1111, " ship it ", 4242, none, some 1000⟩).providerMessageID =
      toString (1050 : Int) := by
  have h := claim_accepts_threaded_reply 200 100 4242 1000 3
    ⟨6, [⟨5, 4242, 1050, 1000, "ship it", 1111, "", "", "", 100, 1300⟩]⟩ [] []
    ⟨5, some ⟨1050, 1111, " ship it ", 4242, none, some 1000⟩⟩
    ⟨1050, 1111, " ship it ", 4242, none, some 1000⟩
    ⟨5, 4242, 1050, 1000, "ship it", 1111, "", "", "", 100, 1300⟩
    "req-w1" (by decide) (by decide) (by decide) (by decide) (by decide) (by decide)
    (by decide) (by decide)
  exact ⟨by decide, h.1, h.2.2.2.1, h.2.2.2.2⟩

/-- C2: in the multi-pending regime, when no same-chat entry threads to the
target, the claim returns nothing, reports a reminder exactly when some
same-chat free-text entry is newer than the target, and removes every
same-chat free-text entry; an immediately repeated call on the resulting
inbox returns `(none, needs_reminder = false)` and changes nothing. -/
theorem claim_multi_pending_drops_ambiguous (now c t pc : Int) (s : telegramInboxState)
    (hpc : 1 < pc)
    (hnorep : ∀ x ∈ s.entries, x.chatID = c → x.replyToMessageID ≠ t)
    (hfresh : ∀ x ∈ s.entries, x.expiresAt = 0 ∨ now < x.expiresAt) :
    ClaimForRequest now c t pc s =
      (none, s.entries.any (isNewerFreeText c t),
        ⟨s.nextUpdateID, s.entries.filter (isOtherChatOrThreaded c)⟩) ∧
    ClaimForRequest now c t pc
        (⟨s.nextUpdateID, s.entries.filter (isOtherChatOrThreaded c)⟩ : telegramInboxState) =
      (none, false, ⟨s.nextUpdateID, s.entries.filter (isOtherChatOrThreaded c)⟩) := by
  have h1 := claimScan_multi c t pc hpc s.entries hnorep
  constructor
  · rw [ClaimForRequest_eq_of_fresh now c t pc s hfresh, h1]
  · have hsub : ∀ x ∈ s.entries.filter (isOtherChatOrThreaded c), x ∈ s.entries :=
      fun x hx => List.mem_of_mem_filter hx
    have hfresh2 : ∀ x ∈ (⟨s.nextUpdateID,
        s.entries.filter (isOtherChatOrThreaded c)⟩ : telegramInboxState).entries,
        x.expiresAt = 0 ∨ now < x.expiresAt :=
      fun x hx => hfresh x (hsub x hx)
    have hprop : ∀ x ∈ s.entries.filter (isOtherChatOrThreaded c),
        x.chatID = c → (x.replyToMessageID ≠ t ∧ x.replyToMessageID ≠ 0) := by
      intro x hx hcx
      refine ⟨hnorep x (hsub x hx) hcx, ?_⟩
      have hkeep := List.of_mem_filter hx
      simp [isOtherChatOrThreaded, hcx] at hkeep
      exact hkeep
    have h2 := claimScan_keep_all c t pc hpc _ hprop
    rw [ClaimForRequest_eq_of_fresh now c t pc _ hfresh2]
    dsimp only
    rw [h2]

/-- C2 witness: the spec's literal scenario — chat 888, target 9001,
pending_count 2, one newer free-text entry 9010: first call drops it with a
reminder, the second returns `(none, false)` on the unchanged inbox. -/
theorem claim_multi_pending_drops_ambiguous_witness :
    (1 : Int) < 2 ∧
    ClaimForRequest 200 888 9001 2
        ⟨2, [⟨1, 888, 9010, 0, "I answered above", 5, "", "", "", 100, 400⟩]⟩ =
      (none, true, ⟨2, []⟩) ∧
    ClaimForRequest 200 888 9001 2 ⟨2, ([] : List telegramInboxEntry)⟩ =
      (none, false, ⟨2, []⟩) := by
  have h := claim_multi_pending_drops_ambiguous 200 888 9001 2
    ⟨2, [⟨1, 888, 9010, 0, "I answered above", 5, "", "", "", 100, 400⟩]⟩
    (by decide) (by decide) (by decide)
  exact ⟨by decide, h.1.trans (by decide), h.2⟩

/-- C3: in the single-pending fallback (no same-chat entry threading to the
target), the claim returns exactly the first same-chat free-text entry newer
than the target (in list = `update_id` order, as maintained by the store),
never asks for a reminder, and when no such entry exists it returns none and
drops every same-chat entry — in particular an inbox holding only older
chatter yields no reply; an accepted entry is removed from the inbox. -/
theorem claim_single_pending_fallback (now c t pc : Int) (s : telegramInboxState)
    (hpc : pc ≤ 1)
    (hnorep : ∀ x ∈ s.entries, x.chatID = c → x.replyToMessageID ≠ t)
    (hfresh : ∀ x ∈ s.entries, x.expiresAt = 0 ∨ now < x.expiresAt) :
    (ClaimForRequest now c t pc s).1 = s.entries.find? (isNewerFreeText c t) ∧
    (ClaimForRequest now c t pc s).2.1 = false ∧
    (s.entries.find? (isNewerFreeText c t) = none →
      (ClaimForRequest now c t pc s).2.2 =
        ⟨s.nextUpdateID, s.entries.filter (isOtherChat c)⟩) ∧
    (∀ e, s.entries.find? (isNewerFreeText c t) = some e →
      (ClaimForRequest now c t pc s).2.2.entries.length < s.entries.length) := by
  have h1 := claimScan_single c t pc hpc s.entries hnorep
  rw [ClaimForRequest_eq_of_fresh now c t pc s hfresh]
  refine ⟨h1.1, h1.2.1, ?_, ?_⟩
  · intro hnone
    rw [h1.2.2.1 hnone]
  · intro e he
    have := h1.2.2.2 e he
    simpa using this

/-- C3 witness: chat 7004, target 5001, pending_count 1; older chatter 5000
and a reply threaded to 4999 are both dropped and no reply is produced. -/
theorem claim_single_pending_fallback_witness :
    (1 : Int) ≤ 1 ∧
    (ClaimForRequest 200 7004 5001 1
        ⟨22, [⟨20, 7004, 5000, 0, "old chatter", 5, "", "", "", 100, 400⟩,
              ⟨21, 7004, 5003, 4999, "reply to something else", 5, "", "", "", 100, 1300⟩]⟩).1 =
      none ∧
    (ClaimForRequest 200 7004 5001 1
        ⟨22, [⟨20, 7004, 5000, 0, "old chatter", 5, "", "", "", 100, 400⟩,
              ⟨21, 7004, 5003, 4999, "reply to something else", 5, "", "", "", 100, 1300⟩]⟩).2.1 =
      false ∧
    (ClaimForRequest 200 7004 5001 1
        ⟨22, [⟨20, 7004, 5000, 0, "old chatter", 5, "", "", "", 100, 400⟩,
              ⟨21, 7004, 5003, 4999, "reply to something else", 5, "", "", "", 100, 1300⟩]⟩).2.2 =
      ⟨22, []⟩ := by
  have h := claim_single_pending_fallback 200 7004 5001 1
    ⟨22, [⟨20, 7004, 5000, 0, "old chatter", 5, "", "", "", 100, 400⟩,
          ⟨21, 7004, 5003, 4999, "reply to something else", 5, "", "", "", 100, 1300⟩]⟩
    (by decide) (by decide) (by decide)
  refine ⟨by decide, h.1.trans (by decide), h.2.1, ?_⟩
  exact (h.2.2.1 (by decide)).trans (by decide)

theorem telegramBatchMax_pos (us : List telegramUpdate) (hne : us ≠ [])
    (hpos : ∀ u ∈ us, 0 < u.updateID) : 0 < telegramBatchMax us := by
  cases us with
  | nil => exact absurd rfl hne
  | cons u rest =>
    have hu := hpos u (by simp)
    unfold telegramBatchMax
    exact lt_max_of_lt_left hu

theorem AppendUpdates_nextUpdateID (now : Int) (s : telegramInboxState)
    (us : List telegramUpdate) (hne : us ≠ []) :
    (AppendUpdates now us s).2.2.nextUpdateID =
      (if 0 < telegramBatchMax us ∧ s.nextUpdateID < telegramBatchMax us + 1 then
        telegramBatchMax us + 1
      else s.nextUpdateID) := by
  cases us with
  | nil => exact absurd rfl hne
  | cons u rest =>
    unfold AppendUpdates
    rw [if_neg (by simp)]
    rfl

/-- C8: a non-empty append of (positive-id) updates recomputes the shared
offset as `max(existing, max(batch.update_id) + 1)`; the returned
`next_offset` equals the persisted one, and no inbox-store operation —
append (any batch), claim, next_offset, prune — ever decreases the
persisted `next_offset`. -/
theorem append_recomputes_monotone_next_offset (now : Int)
    (updates : List telegramUpdate) (s : telegramInboxState) (c t pc : Int)
    (hne : updates ≠ [])
    (hpos : ∀ u ∈ updates, 0 < u.updateID) :
    (AppendUpdates now updates s).2.2.nextUpdateID =
      max s.nextUpdateID (telegramBatchMax updates + 1) ∧
    (AppendUpdates now updates s).2.1 = (AppendUpdates now updates s).2.2.nextUpdateID ∧
    (∀ us2 : List telegramUpdate,
      s.nextUpdateID ≤ (AppendUpdates now us2 s).2.2.nextUpdateID) ∧
    (ClaimForRequest now c t pc s).2.2.nextUpdateID = s.nextUpdateID ∧
    (NextOffset now s).2.nextUpdateID = s.nextUpdateID ∧
    (pruneInboxState now s).nextUpdateID = s.nextUpdateID := by
  refine ⟨?_, ?_, ?_, rfl, rfl, rfl⟩
  · rw [AppendUpdates_nextUpdateID now s updates hne]
    have hmax := telegramBatchMax_pos updates hne hpos
    rw [max_def]
    split_ifs <;> omega
  · cases updates with
    | nil => exact absurd rfl hne
    | cons u rest =>
      unfold AppendUpdates
      rw [if_neg (by simp)]
  · intro us2
    cases us2 with
    | nil => exact le_of_eq rfl
    | cons u rest =>
      rw [AppendUpdates_nextUpdateID now s (u :: rest) (by simp)]
      split_ifs <;> omega

/-- C8 witness: appending `update_id = 7` to a store at offset 3 persists
and returns offset `8 = max(3, 7 + 1)`, and every operation keeps the
offset at least 3. -/
theorem append_recomputes_monotone_next_offset_witness :
    ([⟨7, some ⟨10, 1, "x", 3, none, none⟩⟩] : List telegramUpdate) ≠ [] ∧
    (AppendUpdates 0 [⟨7, some ⟨10, 1, "x", 3, none, none⟩⟩]
        ⟨3, []⟩).2.2.nextUpdateID =
      max 3 (telegramBatchMax [⟨7, some ⟨10, 1, "x", 3, none, none⟩⟩] + 1) ∧
    (ClaimForRequest 0 3 10 1 ⟨3, ([] : List telegramInboxEntry)⟩).2.2.nextUpdateID = 3 := by
  have h := append_recomputes_monotone_next_offset 0
    [⟨7, some ⟨10, 1, "x", 3, none, none⟩⟩] ⟨3, []⟩ 3 10 1 (by decide) (by decide)
  exact ⟨by decide, h.1, h.2.2.2.1⟩
